import Mathlib

/-!
Shallow embedding of the inference serving core of the BLOCKCHAIN-AGI-AIR
repository (src/main/cpp/gguf_processor.cpp and src/main/cpp/llama_inference.h),
together with theorems settling the frozen specification claims about it.
-/

/-- JSON scalar values appearing in the response envelopes of the processor
(the nlohmann::json objects built by `createSuccessResponse` and
`createErrorResponse`). -/
inductive JsonVal where
  | b (v : Bool)
  | s (v : String)
  | i (v : Int)
deriving DecidableEq

/-- A JSON object: key/value pairs, queried with `List.lookup`. -/
abbrev JsonObj := List (String × JsonVal)

/-- Struct Config of GGUFProcessor (gguf_processor.cpp lines 55-67).
Floating-point fields are modelled as rationals. -/
structure Config where
  n_threads : Nat := 4
  n_ctx : Nat := 4096
  n_batch : Nat := 512
  n_gpu_layers : Nat := 35
  n_predict : Nat := 256
  temperature : Rat := 4/5
  top_p : Rat := 9/10
  top_k : Nat := 40
  repeat_penalty : Rat := 11/10
  use_mmap : Bool := true
  use_mlock : Bool := false

/-- Oracle for the external llama.cpp backend as consumed by `GGUFProcessor`:
`tokenizeFn` abstracts llama_tokenize on the loaded model, `detokenizeFn`
abstracts the llama_token_to_piece concatenation of `detokenize`, `evalOk k`
is the success (return value 0) of the k-th llama_eval call of a request
(k = 0 is the prompt evaluation), `logitsAfter k` is the logits vector that
llama_get_logits exposes after k successful eval calls (floats modelled as
integers, preserving the comparison order used by greedy sampling), and
`eosToken` is llama_token_eos of the model. -/
structure Backend where
  tokenizeFn : String → List Int
  detokenizeFn : List Int → String
  evalOk : Nat → Bool
  logitsAfter : Nat → List Int
  eosToken : Int

/-- The scan loop of `GGUFProcessor::sample_token` (gguf_processor.cpp lines
249-254): starting from current best index `best_token` with logit
`best_logit`, scan the remaining logits (element at position `i` of the full
vector first); a strict improvement `logits[i] > best_logit` moves the best
index. -/
def sample_go : List Int → Nat → Nat → Int → Nat
  | [], _, best_token, _ => best_token
  | l :: ls, i, best_token, best_logit =>
    if best_logit < l then sample_go ls (i + 1) i l
    else sample_go ls (i + 1) best_token best_logit

/-- `GGUFProcessor::sample_token` (gguf_processor.cpp lines 240-257): greedy
argmax over the logits vector, initialised with index 0. The C++ code reads
logits[0] unconditionally, so the empty-vector case (returning 0 here) never
arises for a real vocabulary. -/
def sample_token : List Int → Nat
  | [] => 0
  | l0 :: rest => sample_go rest 1 0 l0

/-- Outcome of `GGUFProcessor::generate`: either the produced response tokens
(normal return) or the thrown std::runtime_error message. `evalCalls` counts
the llama_eval calls performed, and `discarded` records the local
response_tokens vector at the moment of the throw - the C++ exception carries
only the message, so these tokens are lost to the caller. -/
inductive GenResult where
  | ok (tokens : List Int) (evalCalls : Nat)
  | evalError (msg : String) (evalCalls : Nat) (discarded : List Int)
deriving DecidableEq

/-- Number of llama_eval calls performed before `generate` terminated. -/
def GenResult.evalCalls : GenResult → Nat
  | .ok _ n => n
  | .evalError _ n _ => n

/-- The token-generation loop of `GGUFProcessor::generate` (gguf_processor.cpp
lines 219-234): `fuel` iterations remain of the n_predict-bounded for-loop,
`evals` llama_eval calls have been made so far, `acc` holds the response
tokens in reverse order. Each iteration samples greedily from the current
logits, stops before emitting the end-of-sequence token, otherwise pushes the
token and evaluates it (a failed evaluation throws, discarding the tokens). -/
def genLoop (b : Backend) : Nat → Nat → List Int → GenResult
  | 0, evals, acc => .ok acc.reverse evals
  | fuel + 1, evals, acc =>
    let token : Int := (sample_token (b.logitsAfter evals) : Nat)
    if token = b.eosToken then .ok acc.reverse evals
    else if b.evalOk evals then genLoop b fuel (evals + 1) (token :: acc)
    else .evalError "Failed to evaluate token" (evals + 1) ((token :: acc).reverse)

/-- `GGUFProcessor::generate` (gguf_processor.cpp lines 210-237): evaluate the
prompt (throwing on failure), then run the bounded generation loop. -/
def generate (b : Backend) (n_predict : Nat) (prompt_tokens : List Int) : GenResult :=
  if b.evalOk 0 then genLoop b n_predict 1 []
  else .evalError "Failed to evaluate prompt" 1 []

/-- `GGUFProcessor::createSuccessResponse` (gguf_processor.cpp lines 276-286).
The wall-clock timestamp is passed in explicitly. -/
def createSuccessResponse (text request_id : String) (processing_time : Int)
    (timestamp : Int) : JsonObj :=
  [("success", .b true),
   ("request_id", .s request_id),
   ("response", .s text),
   ("processing_time_ms", .i processing_time),
   ("model", .s "gemma-3-270m-q4_0"),
   ("timestamp", .i timestamp)]

/-- `GGUFProcessor::createErrorResponse` (gguf_processor.cpp lines 289-297). -/
def createErrorResponse (error request_id : String) (timestamp : Int) : JsonObj :=
  [("success", .b false),
   ("request_id", .s request_id),
   ("error", .s error),
   ("timestamp", .i timestamp)]

/-- The processing statistics of `GGUFProcessor` (gguf_processor.cpp lines
47-49): two counters and the exponential moving average of processing time
(a double, modelled as a rational). -/
structure Stats where
  total_tokens_processed : Int := 0
  total_requests_processed : Int := 0
  average_processing_time : Rat := 0
deriving DecidableEq

/-- The observable state of a `GGUFProcessor` instance: whether the model and
context pointers are non-null, plus the statistics fields. -/
structure ProcState where
  model_nonnull : Bool
  ctx_nonnull : Bool
  stats : Stats
deriving DecidableEq

/-- `GGUFProcessor::isModelLoaded` (gguf_processor.cpp lines 312-314). -/
def isModelLoaded (st : ProcState) : Bool :=
  st.model_nonnull && st.ctx_nonnull

/-- Per-request environment inputs read from clocks: the measured duration in
milliseconds and the epoch timestamp taken by the response builders. -/
structure Env where
  durationMs : Int
  nowTs : Int

/-- `GGUFProcessor::processRequest` (gguf_processor.cpp lines 125-170): under
the processing mutex, reject when no model is loaded; otherwise tokenize,
generate, detokenize, and on success update the statistics (requests + 1,
tokens + prompt + completion, EMA of latency) and build a success envelope.
A thrown evaluation error is caught and converted to an error envelope with
the statistics untouched. -/
def processRequest (b : Backend) (cfg : Config) (env : Env) (st : ProcState)
    (prompt request_id : String) : JsonObj × ProcState :=
  if isModelLoaded st then
    let tokens := b.tokenizeFn prompt
    match generate b cfg.n_predict tokens with
    | .ok response_tokens _ =>
      let response_text := b.detokenizeFn response_tokens
      let st' : ProcState :=
        { st with stats :=
          { total_requests_processed := st.stats.total_requests_processed + 1
            total_tokens_processed :=
              st.stats.total_tokens_processed + tokens.length + response_tokens.length
            average_processing_time :=
              st.stats.average_processing_time * (99/100 : Rat)
                + (env.durationMs : Rat) * (1/100 : Rat) } }
      (createSuccessResponse response_text request_id env.durationMs env.nowTs, st')
    | .evalError msg _ _ =>
      (createErrorResponse msg request_id env.nowTs, st)
  else
    (createErrorResponse "Model not loaded" request_id env.nowTs, st)

/-- The extern "C" entry point process_request (gguf_processor.cpp lines
350-360): when the global processor pointer is null it returns the fixed JSON
literal with keys success and error only - it carries no request_id field;
otherwise it delegates to `processRequest` on the global instance. -/
def process_request (global_processor : Option ProcState) (b : Backend)
    (cfg : Config) (env : Env) (prompt request_id : String) :
    JsonObj × Option ProcState :=
  match global_processor with
  | none => ([("success", .b false), ("error", .s "Processor not initialized")], none)
  | some st =>
    let r := processRequest b cfg env st prompt request_id
    (r.1, some r.2)

/-- The interactive loop of main (gguf_processor.cpp lines 414-447), as the
list of (request_id, prompt) pairs submitted to the processor for a given list
of input lines, starting from the given request_count: quit and exit stop the
loop, empty lines are skipped without incrementing request_count, every other
line is submitted with id local_(request_count+1). -/
def mainLoop : List String → Nat → List (String × String)
  | [], _ => []
  | prompt :: rest, request_count =>
    if prompt == "quit" || prompt == "exit" then []
    else if prompt == "" then mainLoop rest request_count
    else ("local_" ++ toString (request_count + 1), prompt) :: mainLoop rest (request_count + 1)

/-- The non-empty prompts entered before the first quit or exit line. -/
def promptsOf (lines : List String) : List String :=
  (lines.takeWhile fun l => !(l == "quit" || l == "exit")).filter fun l => !(l == "")

/-- Modelled from the spec: the state of one caller of ModelCache::acquire.
The ModelCache implementation is not part of src (llama_inference.h lines
153-166 only declares the class), so the acquire protocol is modelled from the
contract of the spec: a caller starts, may become the single loader, and finishes
holding a handle. -/
inductive CallerState where
  | start
  | loading
  | done (h : Nat)
deriving DecidableEq

/-- Modelled from the spec: a snapshot of the model cache for one model id
with `n` concurrent callers - the cache entry (a loaded handle, if any),
whether a load is in flight, the state of each caller, and the number of backend
load operations performed so far. -/
structure CacheSystem (n : Nat) where
  entry : Option Nat
  loadInFlight : Bool
  caller : Fin n → CallerState
  loads : Nat

/-- Modelled from the spec: the initial cache state - no entry, no load in
flight, all callers about to call acquire, no load performed. -/
def cacheInit (n : Nat) : CacheSystem n :=
  { entry := none, loadInFlight := false, caller := fun _ => .start, loads := 0 }

/-- Modelled from the spec: the interleaving semantics of concurrent
ModelCache::acquire calls for one model id whose backend load yields handle
`H`. A caller seeing no entry and no in-flight load becomes the loader
(performing the one backend load); the loader publishes the handle; a caller
seeing a published entry takes it. A caller seeing an in-flight load can take
no step until the entry is published (it blocks / awaits). -/
inductive CacheStep (n H : Nat) : CacheSystem n → CacheSystem n → Prop where
  | beginLoad (s : CacheSystem n) (i : Fin n) :
      s.caller i = .start → s.entry = none → s.loadInFlight = false →
      CacheStep n H s
        { s with loadInFlight := true
                 caller := Function.update s.caller i .loading
                 loads := s.loads + 1 }
  | finishLoad (s : CacheSystem n) (i : Fin n) :
      s.caller i = .loading →
      CacheStep n H s
        { s with entry := some H
                 loadInFlight := false
                 caller := Function.update s.caller i (.done H) }
  | hit (s : CacheSystem n) (i : Fin n) (h : Nat) :
      s.caller i = .start → s.entry = some h →
      CacheStep n H s { s with caller := Function.update s.caller i (.done h) }

/-- Modelled from the spec: reachability of a cache state from the initial
state by interleaved acquire steps. -/
def CacheReachable (n H : Nat) (s : CacheSystem n) : Prop :=
  Relation.ReflTransGen (CacheStep n H) (cacheInit n) s

/-- Inductive invariant of the cache protocol: the entry only ever holds the
loaded handle, the load counter tracks whether the single load has started,
loaders imply an in-flight load and are unique, and finished callers hold the
loaded handle with the entry published. -/
def CacheInv (n H : Nat) (s : CacheSystem n) : Prop :=
  (s.entry = none ∨ s.entry = some H) ∧
  (s.loads = if s.loadInFlight || s.entry.isSome then 1 else 0) ∧
  (∀ i : Fin n, s.caller i = .loading → s.loadInFlight = true) ∧
  (∀ i j : Fin n, s.caller i = .loading → s.caller j = .loading → i = j) ∧
  (∀ (i : Fin n) (h : Nat), s.caller i = .done h → h = H ∧ s.entry = some H)

/-- Environment with zero duration and zero timestamp, for concrete runs. -/
def env0 : Env := { durationMs := 0, nowTs := 0 }

/-- A processor state whose model pointer is null (model never loaded). -/
def st0 : ProcState := { model_nonnull := false, ctx_nonnull := true, stats := {} }

/-- A processor state with model and context loaded and zeroed statistics. -/
def st1 : ProcState := { model_nonnull := true, ctx_nonnull := true, stats := {} }

/-- A trivial backend used for runs that never reach generation. -/
def b0 : Backend :=
  { tokenizeFn := fun _ => []
    detokenizeFn := fun _ => ""
    evalOk := fun _ => true
    logitsAfter := fun _ => []
    eosToken := 0 }

/-- A backend whose prompt evaluation succeeds, whose first sampled token is
index 1 (not the end-of-sequence token 5), and whose second llama_eval call
fails: generation throws after one response token was produced. -/
def b3 : Backend :=
  { tokenizeFn := fun _ => [1]
    detokenizeFn := fun _ => ""
    evalOk := fun k => k == 0
    logitsAfter := fun _ => [0, 3]
    eosToken := 5 }

/-- A backend realising the spec scenario for prompt Hello with n_predict 5:
evaluations always succeed and greedy sampling yields token 0, then token 1,
then the end-of-sequence token 2 at the third sample. -/
def b6 : Backend :=
  { tokenizeFn := fun _ => [10, 11]
    detokenizeFn := fun _ => "ab"
    evalOk := fun _ => true
    logitsAfter := fun k => if k = 1 then [5, 1, 0] else if k = 2 then [0, 5, 1] else [0, 1, 5]
    eosToken := 2 }

/-- Configuration with the max-predict budget of the spec scenario. -/
def cfg6 : Config := { n_predict := 5 }

/-- Modelled from the spec: first state of a concrete two-caller trace of the
cache protocol - caller 0 has become the loader, performing the one backend
load. -/
def cacheS1 : CacheSystem 2 :=
  { entry := none
    loadInFlight := true
    caller := Function.update (cacheInit 2).caller 0 .loading
    loads := 1 }

/-- Modelled from the spec: second state of the trace - caller 0 has finished
the load and published handle 42. -/
def cacheS2 : CacheSystem 2 :=
  { entry := some 42
    loadInFlight := false
    caller := Function.update cacheS1.caller 0 (.done 42)
    loads := 1 }

/-- Modelled from the spec: final state of the trace - caller 1 has taken the
published handle, so both callers finished with handle 42 after exactly one
backend load. -/
def cacheS3 : CacheSystem 2 :=
  { entry := some 42
    loadInFlight := false
    caller := Function.update cacheS2.caller 1 (.done 42)
    loads := 1 }

/-! ## Theorems -/

/-- Behaviour of the sampling scan: either no element of the remaining list
strictly beats the current best logit (the current best index is returned), or
the scan returns the position of the first element realising the maximum of
the remaining list, which strictly beats the current best logit, dominates
every element of the list, and strictly dominates every earlier element. -/
theorem sample_go_spec (ls : List Int) (i best : Nat) (bl : Int) :
    (sample_go ls i best bl = best ∧ ∀ x ∈ ls, x ≤ bl) ∨
    (∃ k, ∃ hk : k < ls.length,
      sample_go ls i best bl = i + k ∧
      bl < ls.get ⟨k, hk⟩ ∧
      (∀ j (hj : j < ls.length), ls.get ⟨j, hj⟩ ≤ ls.get ⟨k, hk⟩) ∧
      (∀ j (hj : j < ls.length), j < k → ls.get ⟨j, hj⟩ < ls.get ⟨k, hk⟩)) := by
  induction ls generalizing i best bl with
  | nil => exact Or.inl ⟨rfl, by simp⟩
  | cons l ls ih =>
    by_cases hbl : bl < l
    · rw [sample_go, if_pos hbl]
      rcases ih (i + 1) i l with ⟨heq, hall⟩ | ⟨k, hk, heq, hlt, hmax, hpre⟩
      · refine Or.inr ⟨0, by simp, by simpa using heq, by simpa using hbl, ?_, ?_⟩
        · intro j hj
          cases j with
          | zero => simp
          | succ j => simpa using hall _ (List.get_mem ls j (by simpa using hj))
        · intro j hj hj0; omega
      · refine Or.inr ⟨k + 1, by simpa using hk, ?_, ?_, ?_, ?_⟩
        · rw [heq]; omega
        · simpa using lt_trans hbl hlt
        · intro j hj
          cases j with
          | zero => simpa using le_of_lt hlt
          | succ j => simpa using hmax j (by simpa using hj)
        · intro j hj hjk
          cases j with
          | zero => simpa using hlt
          | succ j => simpa using hpre j (by simpa using hj) (by omega)
    · rw [sample_go, if_neg hbl]
      rcases ih (i + 1) best bl with ⟨heq, hall⟩ | ⟨k, hk, heq, hlt, hmax, hpre⟩
      · refine Or.inl ⟨heq, ?_⟩
        intro x hx
        rcases List.mem_cons.mp hx with rfl | hx
        · exact le_of_not_lt hbl
        · exact hall x hx
      · refine Or.inr ⟨k + 1, by simpa using hk, ?_, ?_, ?_, ?_⟩
        · rw [heq]; omega
        · simpa using hlt
        · intro j hj
          cases j with
          | zero => simpa using le_trans (le_of_not_lt hbl) (le_of_lt hlt)
          | succ j => simpa using hmax j (by simpa using hj)
        · intro j hj hjk
          cases j with
          | zero => simpa using lt_of_le_of_lt (le_of_not_lt hbl) hlt
          | succ j => simpa using hpre j (by simpa using hj) (by omega)

/-- Claim C4: for every logits vector with at least one entry, `sample_token`
returns a valid index holding the maximum logit value, and when several
indices share that exact maximum it returns the lowest such index, so greedy
sampling is deterministic and reproducible. -/
theorem sample_token_greedy_lowest_index (logits : List Int) (hlen : 0 < logits.length) :
    ∃ hr : sample_token logits < logits.length,
      (∀ j (hj : j < logits.length),
        logits.get ⟨j, hj⟩ ≤ logits.get ⟨sample_token logits, hr⟩) ∧
      (∀ j (hj : j < logits.length),
        logits.get ⟨j, hj⟩ = logits.get ⟨sample_token logits, hr⟩ →
          sample_token logits ≤ j) := by
  match logits, hlen with
  | l0 :: rest, _ =>
    rw [sample_token]
    rcases sample_go_spec rest 1 0 l0 with ⟨heq, hall⟩ | ⟨k, hk, heq, hlt, hmax, hpre⟩
    · rw [heq]
      refine ⟨by simp, ?_, ?_⟩
      · intro j hj
        cases j with
        | zero => simp
        | succ j => simpa using hall _ (List.get_mem rest j (by simpa using hj))
      · intro j hj _; omega
    · rw [Nat.add_comm 1 k] at heq
      rw [heq]
      have hr : k + 1 < (l0 :: rest).length := by simpa using hk
      refine ⟨hr, ?_, ?_⟩
      · intro j hj
        cases j with
        | zero => simpa using le_of_lt hlt
        | succ j => simpa using hmax j (by simpa using hj)
      · intro j hj hjeq
        cases j with
        | zero =>
          exfalso
          simp only [List.get] at hjeq
          omega
        | succ j =>
          simp only [List.length_cons, Nat.add_lt_add_iff_right] at hj
          by_contra hcon
          have hjk : j < k := by omega
          have := hpre j hj hjk
          simp only [List.get] at hjeq
          omega

/-- Witness: on the logits vector [3, 7, 7, 1] the greedy sampler picks a
maximal entry and, among the two positions holding the maximum 7, the lowest
index. -/
theorem sample_token_greedy_lowest_index_witness :
    0 < ([3, 7, 7, 1] : List Int).length ∧
    ∃ hr : sample_token [3, 7, 7, 1] < ([3, 7, 7, 1] : List Int).length,
      (∀ j (hj : j < ([3, 7, 7, 1] : List Int).length),
        ([3, 7, 7, 1] : List Int).get ⟨j, hj⟩ ≤
          ([3, 7, 7, 1] : List Int).get ⟨sample_token [3, 7, 7, 1], hr⟩) ∧
      (∀ j (hj : j < ([3, 7, 7, 1] : List Int).length),
        ([3, 7, 7, 1] : List Int).get ⟨j, hj⟩ =
            ([3, 7, 7, 1] : List Int).get ⟨sample_token [3, 7, 7, 1], hr⟩ →
          sample_token [3, 7, 7, 1] ≤ j) :=
  ⟨by decide, sample_token_greedy_lowest_index [3, 7, 7, 1] (by decide)⟩

/-- The generation loop performs at most `fuel` further llama_eval calls on
top of the `evals` calls already made. -/
theorem genLoop_evalCalls_le (b : Backend) (fuel : Nat) :
    ∀ (evals : Nat) (acc : List Int),
      (genLoop b fuel evals acc).evalCalls ≤ evals + fuel := by
  induction fuel with
  | zero => intro evals acc; simp [genLoop, GenResult.evalCalls]
  | succ fuel ih =>
    intro evals acc
    rw [genLoop]
    split
    · simp only [GenResult.evalCalls]; omega
    · split
      · exact le_trans (ih (evals + 1) _) (by omega)
      · simp only [GenResult.evalCalls]; omega

/-- Claim C5: for every backend, every prompt token list and every
n_predict, `generate` performs at most n_predict + 1 llama_eval calls before
terminating (one for the prompt plus at most one per produced token), on the
normal path and on both throwing paths. -/
theorem generate_eval_calls_bound (b : Backend) (n_predict : Nat)
    (prompt_tokens : List Int) :
    (generate b n_predict prompt_tokens).evalCalls ≤ n_predict + 1 := by
  rw [generate]
  split
  · have := genLoop_evalCalls_le b n_predict 1 []
    omega
  · simp only [GenResult.evalCalls]; omega

/-- Claim C10: the interactive loop submits exactly the non-empty input lines
entered before the first quit or exit line, in order, and numbers them with
consecutive ids local_(c+1), local_(c+2), ... - empty lines are skipped
without consuming a request id. -/
theorem mainLoop_ids_spec (lines : List String) (c : Nat) :
    mainLoop lines c =
      ((promptsOf lines).enumFrom c).map
        (fun p => ("local_" ++ toString (p.1 + 1), p.2)) := by
  induction lines generalizing c with
  | nil => simp [mainLoop, promptsOf]
  | cons l rest ih =>
    by_cases hq : (l == "quit" || l == "exit") = true
    · have hp : (!(l == "quit") && !(l == "exit")) = false := by
        revert hq
        cases hb1 : (l == "quit") <;> cases hb2 : (l == "exit") <;> simp
      simp [mainLoop, promptsOf, hq, hp, List.takeWhile_cons]
    · have hq2 : (l == "quit" || l == "exit") = false := by
        revert hq; cases (l == "quit" || l == "exit") <;> simp
      have hqa : (l == "quit") = false := by
        revert hq2
        cases hb1 : (l == "quit") <;> cases hb2 : (l == "exit") <;> simp
      have hqb : (l == "exit") = false := by
        revert hq2
        cases hb1 : (l == "quit") <;> cases hb2 : (l == "exit") <;> simp
      by_cases he : (l == "") = true
      · simpa [mainLoop, promptsOf, hq2, hqa, hqb, he, List.takeWhile_cons] using ih c
      · have he2 : (l == "") = false := by
          revert he; cases (l == "") <;> simp
        simp [mainLoop, promptsOf, hq2, hqa, hqb, he2, List.takeWhile_cons,
          List.enumFrom, ih (c + 1)]

/-- Counterexample for claim C7 as stated: the error envelope built by
`createErrorResponse` carries no processing_time_ms field at all, so not
every response envelope contains a numeric processing_time_ms. -/
theorem error_response_missing_processing_time_cex :
    (createErrorResponse "boom" "req-1" 0).lookup "processing_time_ms" = none := rfl

/-- Claim C7 (amended): a success envelope contains success = true, the
request_id, the response string, processing_time_ms, and the timestamp, and no
error field; an error envelope contains success = false, the request_id, the
error string, and the timestamp, but neither a response field nor a
processing_time_ms field. The response and error fields are mutually
exclusive on both outcomes. -/
theorem response_envelope_fields_spec (text err rid : String) (pt ts : Int) :
    ((createSuccessResponse text rid pt ts).lookup "success" = some (.b true) ∧
     (createSuccessResponse text rid pt ts).lookup "request_id" = some (.s rid) ∧
     (createSuccessResponse text rid pt ts).lookup "response" = some (.s text) ∧
     (createSuccessResponse text rid pt ts).lookup "processing_time_ms" = some (.i pt) ∧
     (createSuccessResponse text rid pt ts).lookup "timestamp" = some (.i ts) ∧
     (createSuccessResponse text rid pt ts).lookup "error" = none) ∧
    ((createErrorResponse err rid ts).lookup "success" = some (.b false) ∧
     (createErrorResponse err rid ts).lookup "request_id" = some (.s rid) ∧
     (createErrorResponse err rid ts).lookup "error" = some (.s err) ∧
     (createErrorResponse err rid ts).lookup "timestamp" = some (.i ts) ∧
     (createErrorResponse err rid ts).lookup "response" = none ∧
     (createErrorResponse err rid ts).lookup "processing_time_ms" = none) :=
  ⟨⟨rfl, rfl, rfl, rfl, rfl, rfl⟩, ⟨rfl, rfl, rfl, rfl, rfl, rfl⟩⟩

/-- Claim C9: when the model or context pointer is null, `processRequest`
returns an error envelope carrying the message Model not loaded and the
request_id supplied by the caller, and leaves the processor state - in
particular total_requests_processed, total_tokens_processed and
average_processing_time - completely unchanged. -/
theorem processRequest_model_not_loaded_spec (b : Backend) (cfg : Config)
    (env : Env) (st : ProcState) (prompt rid : String)
    (h : isModelLoaded st = false) :
    processRequest b cfg env st prompt rid =
      (createErrorResponse "Model not loaded" rid env.nowTs, st) ∧
    ((processRequest b cfg env st prompt rid).1).lookup "error" =
      some (.s "Model not loaded") ∧
    ((processRequest b cfg env st prompt rid).1).lookup "request_id" =
      some (.s rid) ∧
    ((processRequest b cfg env st prompt rid).1).lookup "success" =
      some (.b false) ∧
    (processRequest b cfg env st prompt rid).2.stats = st.stats := by
  have hmain : processRequest b cfg env st prompt rid =
      (createErrorResponse "Model not loaded" rid env.nowTs, st) := by
    rw [processRequest, if_neg (by simp [h])]
  refine ⟨hmain, ?_, ?_, ?_, ?_⟩ <;> rw [hmain] <;> rfl

/-- Witness for claim C9 at a concrete state whose model pointer is null. -/
theorem processRequest_model_not_loaded_spec_witness :
    isModelLoaded st0 = false ∧
    processRequest b0 {} env0 st0 "ping" "req-9" =
      (createErrorResponse "Model not loaded" "req-9" env0.nowTs, st0) :=
  ⟨rfl, (processRequest_model_not_loaded_spec b0 {} env0 st0 "ping" "req-9" rfl).1⟩

/-- Counterexample for claim C2 as stated: through the process boundary, the
error path taken when the global processor is not initialised returns a
response with no request_id field at all, so not every error path echoes the
caller-supplied id. -/
theorem process_request_uninit_cex :
    ((process_request none b0 {} env0 "ping" "req-2").1).lookup "request_id" = none ∧
    ((process_request none b0 {} env0 "ping" "req-2").1).lookup "error" =
      some (.s "Processor not initialized") := ⟨rfl, rfl⟩

/-- Claim C2 (amended): whenever the global processor is initialised, every
submitted request receives exactly one response (the function is total) whose
request_id field equals the caller-supplied id, on the success path and on
every error path; the only exception is the uninitialised-processor path,
whose fixed response carries no request_id field. -/
theorem process_request_request_id_spec (st : ProcState) (b : Backend)
    (cfg : Config) (env : Env) (prompt rid : String) :
    ((process_request (some st) b cfg env prompt rid).1).lookup "request_id" =
      some (.s rid) := by
  by_cases h : isModelLoaded st
  · cases hg : generate b cfg.n_predict (b.tokenizeFn prompt) with
    | ok rt k =>
      simp only [process_request, processRequest, h, hg]
      rfl
    | evalError msg k disc =>
      simp only [process_request, processRequest, h, hg]
      rfl
  · simp only [process_request, processRequest, h]
    rfl

/-- Counterexample for claim C1 as stated: on the model-not-loaded path and on
the backend-exception path, total_requests_processed does not increment - both
failing requests leave the counter at its old value instead of old value + 1. -/
theorem processRequest_error_counters_cex :
    (processRequest b0 {} env0 st0 "ping" "req-1").2.stats.total_requests_processed ≠
      st0.stats.total_requests_processed + 1 ∧
    (processRequest b3 {} env0 st1 "ping" "req-1").2.stats.total_requests_processed ≠
      st1.stats.total_requests_processed + 1 := by
  constructor <;> decide

/-- Claim C1 (amended): `processRequest` updates the counters only on the
success path - there total_requests_processed increments by exactly 1 and
total_tokens_processed increments by prompt-token-count plus
completion-token-count; on the model-not-loaded path and on the
backend-exception path the whole state, counters included, is unchanged. -/
theorem processRequest_counters_spec (b : Backend) (cfg : Config) (env : Env)
    (st : ProcState) (prompt rid : String) :
    (isModelLoaded st = false → (processRequest b cfg env st prompt rid).2 = st) ∧
    (∀ (msg : String) (k : Nat) (disc : List Int), isModelLoaded st = true →
      generate b cfg.n_predict (b.tokenizeFn prompt) = .evalError msg k disc →
      (processRequest b cfg env st prompt rid).2 = st) ∧
    (∀ (response_tokens : List Int) (k : Nat), isModelLoaded st = true →
      generate b cfg.n_predict (b.tokenizeFn prompt) = .ok response_tokens k →
      (processRequest b cfg env st prompt rid).2.stats.total_requests_processed =
          st.stats.total_requests_processed + 1 ∧
      (processRequest b cfg env st prompt rid).2.stats.total_tokens_processed =
          st.stats.total_tokens_processed + (b.tokenizeFn prompt).length +
            response_tokens.length) := by
  refine ⟨?_, ?_, ?_⟩
  · intro h
    rw [processRequest, if_neg (by simp [h])]
  · intro msg k disc hload hg
    rw [processRequest, if_pos hload]
    simp only [hg]
  · intro response_tokens k hload hg
    rw [processRequest, if_pos hload]
    simp only [hg]
    exact ⟨trivial, trivial⟩

/-- Witness for (the amended) claim C1: a concrete failing request leaves the
state unchanged. -/
theorem processRequest_counters_spec_witness :
    isModelLoaded st0 = false ∧ (processRequest b0 {} env0 st0 "ping" "req-1").2 = st0 :=
  ⟨rfl, (processRequest_counters_spec b0 {} env0 st0 "ping" "req-1").1 rfl⟩

/-- Counterexample for claim C3 as stated: with backend `b3` the second
llama_eval call fails after one response token (token 1) was already produced;
`generate` throws away that token (it survives only in the `discarded` field
of the model, mirroring the destroyed local vector) and the caller receives a
plain error envelope with no response field and no partial output - nothing is
preserved or tagged incomplete. -/
theorem generate_partial_output_discarded_cex :
    generate b3 256 [1] = .evalError "Failed to evaluate token" 2 [1] ∧
    ((processRequest b3 {} env0 st1 "ping" "req-3").1).lookup "response" = none ∧
    ((processRequest b3 {} env0 st1 "ping" "req-3").1).lookup "success" =
      some (.b false) := by
  refine ⟨by decide, ?_, ?_⟩ <;> rfl

/-- Claim C3 (amended): when a backend evaluation call fails partway through
generation, the tokens already produced are discarded rather than preserved -
`processRequest` returns a plain error envelope carrying only the exception
message and the request id, with no partial output, and leaves the state
unchanged. -/
theorem processRequest_evalError_spec (b : Backend) (cfg : Config) (env : Env)
    (st : ProcState) (prompt rid msg : String) (k : Nat) (disc : List Int)
    (hload : isModelLoaded st = true)
    (hg : generate b cfg.n_predict (b.tokenizeFn prompt) = .evalError msg k disc) :
    processRequest b cfg env st prompt rid =
      (createErrorResponse msg rid env.nowTs, st) ∧
    ((processRequest b cfg env st prompt rid).1).lookup "response" = none ∧
    (processRequest b cfg env st prompt rid).2 = st := by
  have hmain : processRequest b cfg env st prompt rid =
      (createErrorResponse msg rid env.nowTs, st) := by
    rw [processRequest, if_pos hload]
    simp only [hg]
  refine ⟨hmain, ?_, ?_⟩ <;> rw [hmain] <;> rfl

/-- Witness for (the amended) claim C3 at the concrete backend `b3`. -/
theorem processRequest_evalError_spec_witness :
    isModelLoaded st1 = true ∧
    generate b3 ({} : Config).n_predict (b3.tokenizeFn "ping") =
      .evalError "Failed to evaluate token" 2 [1] ∧
    processRequest b3 {} env0 st1 "ping" "req-3" =
      (createErrorResponse "Failed to evaluate token" "req-3" env0.nowTs, st1) :=
  ⟨rfl, by decide,
    (processRequest_evalError_spec b3 {} env0 st1 "ping" "req-3"
      "Failed to evaluate token" 2 [1] rfl (by decide)).1⟩

/-- Counterexample for claim C6 as stated: in the spec scenario (prompt Hello,
n_predict = 5, end-of-sequence sampled as the 3rd generated token) generation
does halt with 2 completion tokens and success = true, but the response
envelope contains no completion_tokens field at all, so the response does not
report completion_tokens = 2. -/
theorem response_completion_tokens_missing_cex :
    generate b6 cfg6.n_predict (b6.tokenizeFn "Hello") = .ok [0, 1] 3 ∧
    ((processRequest b6 cfg6 env0 st1 "Hello" "req-6").1).lookup "completion_tokens" =
      none ∧
    ((processRequest b6 cfg6 env0 st1 "Hello" "req-6").1).lookup "success" =
      some (.b true) := by
  refine ⟨by decide, ?_, ?_⟩ <;> rfl

/-- Claim C6 (amended): if the backend samples the end-of-sequence token as the
3rd generated token under n_predict = 5, generation halts immediately without
emitting it and before reaching the max-token budget, exactly 2 completion
tokens are produced, and the response has success = true; the completion-token
count is reflected in the total_tokens_processed increment (prompt tokens + 2)
but the envelope itself carries no completion_tokens field. -/
theorem generate_eos_third_token_spec (b : Backend) (cfg : Config) (env : Env)
    (st : ProcState) (prompt rid : String)
    (hload : isModelLoaded st = true)
    (hnp : cfg.n_predict = 5)
    (h1 : ((sample_token (b.logitsAfter 1) : Nat) : Int) ≠ b.eosToken)
    (h2 : ((sample_token (b.logitsAfter 2) : Nat) : Int) ≠ b.eosToken)
    (h3 : ((sample_token (b.logitsAfter 3) : Nat) : Int) = b.eosToken)
    (he0 : b.evalOk 0 = true) (he1 : b.evalOk 1 = true) (he2 : b.evalOk 2 = true) :
    generate b cfg.n_predict (b.tokenizeFn prompt) =
      .ok [((sample_token (b.logitsAfter 1) : Nat) : Int),
           ((sample_token (b.logitsAfter 2) : Nat) : Int)] 3 ∧
    ((processRequest b cfg env st prompt rid).1).lookup "success" = some (.b true) ∧
    ((processRequest b cfg env st prompt rid).1).lookup "completion_tokens" = none ∧
    (processRequest b cfg env st prompt rid).2.stats.total_tokens_processed =
      st.stats.total_tokens_processed + (b.tokenizeFn prompt).length + 2 := by
  have hgen : generate b cfg.n_predict (b.tokenizeFn prompt) =
      .ok [((sample_token (b.logitsAfter 1) : Nat) : Int),
           ((sample_token (b.logitsAfter 2) : Nat) : Int)] 3 := by
    rw [generate, if_pos he0, hnp]
    simp [genLoop, h1, h2, h3, he1, he2]
  have hpr : processRequest b cfg env st prompt rid =
      (createSuccessResponse
        (b.detokenizeFn
          [((sample_token (b.logitsAfter 1) : Nat) : Int),
           ((sample_token (b.logitsAfter 2) : Nat) : Int)]) rid env.durationMs env.nowTs,
       { st with stats :=
         { total_requests_processed := st.stats.total_requests_processed + 1
           total_tokens_processed :=
             st.stats.total_tokens_processed + (b.tokenizeFn prompt).length + 2
           average_processing_time :=
             st.stats.average_processing_time * (99/100 : Rat)
               + (env.durationMs : Rat) * (1/100 : Rat) } }) := by
    rw [processRequest, if_pos hload]
    simp only [hgen]
    norm_num
  refine ⟨hgen, ?_, ?_, ?_⟩ <;> rw [hpr] <;> rfl

/-- Witness for (the amended) claim C6 at the concrete backend `b6`. -/
theorem generate_eos_third_token_spec_witness :
    isModelLoaded st1 = true ∧ cfg6.n_predict = 5 ∧
    (generate b6 cfg6.n_predict (b6.tokenizeFn "Hello") =
      .ok [((sample_token (b6.logitsAfter 1) : Nat) : Int),
           ((sample_token (b6.logitsAfter 2) : Nat) : Int)] 3 ∧
     ((processRequest b6 cfg6 env0 st1 "Hello" "req-6").1).lookup "success" =
       some (.b true) ∧
     ((processRequest b6 cfg6 env0 st1 "Hello" "req-6").1).lookup "completion_tokens" =
       none ∧
     (processRequest b6 cfg6 env0 st1 "Hello" "req-6").2.stats.total_tokens_processed =
       st1.stats.total_tokens_processed + (b6.tokenizeFn "Hello").length + 2) :=
  ⟨rfl, rfl,
    generate_eos_third_token_spec b6 cfg6 env0 st1 "Hello" "req-6" rfl rfl
      (by decide) (by decide) (by decide) rfl rfl rfl⟩

/-- The initial cache state satisfies the cache invariant. -/
theorem cacheInv_init (n H : Nat) : CacheInv n H (cacheInit n) := by
  refine ⟨Or.inl rfl, rfl, ?_, ?_, ?_⟩
  · intro i h
    simp [cacheInit] at h
  · intro i j hi hj
    simp [cacheInit] at hi
  · intro i h hd
    simp [cacheInit] at hd

/-- Every step of the cache protocol preserves the cache invariant. -/
theorem cacheInv_step (n H : Nat) (s t : CacheSystem n) (hinv : CacheInv n H s)
    (hstep : CacheStep n H s t) : CacheInv n H t := by
  obtain ⟨hentry, hloads, hloadimp, huniq, hdone⟩ := hinv
  cases hstep with
  | beginLoad i hstart hnone hnofl =>
    have hzero : s.loads = 0 := by
      rw [hloads, hnofl, hnone]; rfl
    refine ⟨hentry, ?_, ?_, ?_, ?_⟩
    · dsimp only
      rw [hzero, hnone]
      rfl
    · intro j _; rfl
    · intro j k hj hk
      dsimp only at hj hk
      by_cases hji : j = i
      · by_cases hki : k = i
        · rw [hji, hki]
        · rw [Function.update_noteq hki] at hk
          exact absurd (hloadimp k hk) (by rw [hnofl]; simp)
      · rw [Function.update_noteq hji] at hj
        exact absurd (hloadimp j hj) (by rw [hnofl]; simp)
    · intro j h hd
      dsimp only at hd
      by_cases hji : j = i
      · rw [hji, Function.update_same] at hd
        exact absurd hd (by simp)
      · rw [Function.update_noteq hji] at hd
        exact absurd (hdone j h hd).2 (by rw [hnone]; simp)
  | finishLoad i hloading =>
    have hone : s.loads = 1 := by
      rw [hloads, hloadimp i hloading]; rfl
    refine ⟨Or.inr rfl, ?_, ?_, ?_, ?_⟩
    · dsimp only
      rw [hone]
      rfl
    · intro j hj
      dsimp only at hj
      by_cases hji : j = i
      · rw [hji, Function.update_same] at hj
        exact absurd hj (by simp)
      · rw [Function.update_noteq hji] at hj
        exact absurd (huniq j i hj hloading) hji
    · intro j k hj hk
      dsimp only at hj hk
      by_cases hji : j = i
      · rw [hji, Function.update_same] at hj
        exact absurd hj (by simp)
      · rw [Function.update_noteq hji] at hj
        exact absurd (huniq j i hj hloading) hji
    · intro j h hd
      dsimp only at hd
      by_cases hji : j = i
      · rw [hji, Function.update_same] at hd
        cases hd
        exact ⟨rfl, rfl⟩
      · rw [Function.update_noteq hji] at hd
        exact ⟨(hdone j h hd).1, rfl⟩
  | hit i h hstart hsome =>
    have hH : h = H := by
      rcases hentry with hn | hs
      · rw [hn] at hsome; cases hsome
      · rw [hs] at hsome
        cases hsome
        rfl
    refine ⟨hentry, hloads, ?_, ?_, ?_⟩
    · intro j hj
      dsimp only at hj
      by_cases hji : j = i
      · rw [hji, Function.update_same] at hj
        exact absurd hj (by simp)
      · rw [Function.update_noteq hji] at hj
        exact hloadimp j hj
    · intro j k hj hk
      dsimp only at hj hk
      by_cases hji : j = i
      · rw [hji, Function.update_same] at hj
        exact absurd hj (by simp)
      · by_cases hki : k = i
        · rw [hki, Function.update_same] at hk
          exact absurd hk (by simp)
        · rw [Function.update_noteq hji] at hj
          rw [Function.update_noteq hki] at hk
          exact huniq j k hj hk
    · intro j g hd
      dsimp only at hd
      by_cases hji : j = i
      · rw [hji, Function.update_same] at hd
        cases hd
        exact ⟨hH, by rw [← hH]; exact hsome⟩
      · rw [Function.update_noteq hji] at hd
        exact hdone j g hd

/-- Every reachable cache state satisfies the cache invariant. -/
theorem cacheInv_reachable (n H : Nat) (s : CacheSystem n)
    (h : CacheReachable n H s) : CacheInv n H s := by
  induction h with
  | refl => exact cacheInv_init n H
  | tail _ hstep ih => exact cacheInv_step n H _ _ ih hstep

/-- Claim C8: in every interleaving of concurrent acquire calls for the same
not-yet-loaded model id, the model cache performs at most one backend load
operation, every caller that has finished holds the one loaded handle, and as
soon as any caller has finished exactly one load has been performed
(at-most-once loading). -/
theorem modelCache_at_most_once (n H : Nat) (s : CacheSystem n)
    (hre : CacheReachable n H s) :
    s.loads ≤ 1 ∧
    (∀ (i : Fin n) (h : Nat), s.caller i = .done h → h = H) ∧
    ((∃ i : Fin n, ∃ h : Nat, s.caller i = .done h) → s.loads = 1) := by
  obtain ⟨hentry, hloads, _, _, hdone⟩ := cacheInv_reachable n H s hre
  refine ⟨?_, fun i h hd => (hdone i h hd).1, ?_⟩
  · rw [hloads]
    split <;> omega
  · rintro ⟨i, h, hd⟩
    rw [hloads, (hdone i h hd).2]
    simp

/-- The final state of the concrete two-caller trace is reachable: caller 0
begins and finishes the single load of handle 42, then caller 1 takes the
published entry. -/
theorem cacheS3_reachable : CacheReachable 2 42 cacheS3 := by
  have h1 : CacheStep 2 42 (cacheInit 2) cacheS1 :=
    CacheStep.beginLoad (cacheInit 2) 0 rfl rfl rfl
  have h2 : CacheStep 2 42 cacheS1 cacheS2 :=
    CacheStep.finishLoad cacheS1 0 rfl
  have h3 : CacheStep 2 42 cacheS2 cacheS3 :=
    CacheStep.hit cacheS2 1 42 rfl rfl
  exact Relation.ReflTransGen.tail
    (Relation.ReflTransGen.tail (Relation.ReflTransGen.tail Relation.ReflTransGen.refl h1) h2) h3

/-- Witness for claim C8 at the concrete reachable state `cacheS3`, produced
by a full interleaved trace in which caller 0 performs the one backend load of
handle 42 and caller 1 takes the published entry: both callers have finished,
both hold handle 42, and the load counter is exactly 1, so none of the
conjuncts of the theorem is vacuous there. -/
theorem modelCache_at_most_once_witness :
    CacheReachable 2 42 cacheS3 ∧
    (cacheS3.loads ≤ 1 ∧
     (∀ (i : Fin 2) (h : Nat), cacheS3.caller i = .done h → h = 42) ∧
     ((∃ i : Fin 2, ∃ h : Nat, cacheS3.caller i = .done h) → cacheS3.loads = 1)) ∧
    cacheS3.caller 0 = .done 42 ∧ cacheS3.caller 1 = .done 42 ∧ cacheS3.loads = 1 :=
  ⟨cacheS3_reachable,
   modelCache_at_most_once 2 42 cacheS3 cacheS3_reachable,
   by decide, by decide, rfl⟩
